import Mathlib

/-!
Verification of the policy-gated execution pipeline of the agentic-wallet
repository.  Each TypeScript component relevant to the claims is shallowly
embedded as an executable Lean definition: classes with internal mutable
state become functions that take the state and return the updated state,
`Map` objects become association lists, `bigint` becomes `Int`, `Date.now()`
timestamps become `Int` millisecond values, thrown exceptions become
`Except` errors.
-/

namespace AgenticWallet

/-- Association-list lookup, modelling `Map.get` from the TypeScript source
(`undefined` becomes `none`). -/
def lookupA {α : Type} : List (String × α) → String → Option α
  | [], _ => none
  | (k, v) :: rest, key => if k = key then some v else lookupA rest key

/-- Association-list update, modelling `Map.set`: replaces the binding when
the key is present, appends it otherwise. -/
def insertA {α : Type} : List (String × α) → String → α → List (String × α)
  | [], key, v => [(key, v)]
  | (k, w) :: rest, key, v =>
      if k = key then (k, v) :: rest else (k, w) :: insertA rest key v

theorem lookupA_insertA_self {α : Type} (l : List (String × α)) (key : String) (v : α) :
    lookupA (insertA l key v) key = some v := by
  induction l with
  | nil => simp [insertA, lookupA]
  | cons hd tl ih =>
    obtain ⟨k, w⟩ := hd
    by_cases h : k = key
    · simp [insertA, lookupA, h]
    · simp [insertA, lookupA, h, ih]

theorem lookupA_insertA_ne {α : Type} (l : List (String × α)) (key c : String) (v : α)
    (h : c ≠ key) : lookupA (insertA l key v) c = lookupA l c := by
  have hkc : ¬ key = c := fun hk => h (Eq.symm hk)
  induction l with
  | nil => simp [insertA, lookupA, hkc]
  | cons hd tl ih =>
    obtain ⟨k, w⟩ := hd
    by_cases hk : k = key
    · subst hk
      simp [insertA, lookupA, hkc]
    · simp [insertA, lookupA, hk, ih]

/-- `Intent` — the discriminated union from `core/intents/Intent.ts`, one
constructor per variant of the Zod `IntentSchema`.  `bigint` amounts are
`Int`; optional string fields are `Option String`. -/
inductive Intent
  | transfer (id chain fromWalletId createdAt «to» : String) (amount : Int)
      (tokenMint : Option String) (reasoning : Option String)
  | swap (id chain fromWalletId createdAt poolAddress tokenInMint tokenOutMint : String)
      (amountIn minAmountOut : Int) (reasoning : Option String)
  | create_mint (id chain fromWalletId createdAt : String) (decimals : Nat)
      (mintAuthority freezeAuthority : Option String) (reasoning : Option String)
  | mint_token (id chain fromWalletId createdAt mint «to» : String) (amount : Int)
      (reasoning : Option String)
deriving DecidableEq

/-- The `type` string discriminator of an intent. -/
def Intent.type : Intent → String
  | .transfer .. => "transfer"
  | .swap .. => "swap"
  | .create_mint .. => "create_mint"
  | .mint_token .. => "mint_token"

/-- The `chain` field of an intent. -/
def Intent.chain : Intent → String
  | .transfer _ c .. => c
  | .swap _ c .. => c
  | .create_mint _ c .. => c
  | .mint_token _ c .. => c

/-- The `fromWalletId` field of an intent. -/
def Intent.fromWalletId : Intent → String
  | .transfer _ _ w .. => w
  | .swap _ _ w .. => w
  | .create_mint _ _ w .. => w
  | .mint_token _ _ w .. => w

/-- A metadata value inside a `PolicyDecision.meta` record
(`Record<string, unknown>` in the source; the concrete policies only ever
store stringified bigints, numbers and string arrays). -/
inductive MetaVal
  | str (s : String)
  | num (n : Nat)
  | strList (l : List String)
deriving DecidableEq

/-- `PolicyDecision` from `core/types/PolicyDecision.ts`: `allowed: true`
carries only the policy id, `allowed: false` carries a reason and optional
metadata (modelled as a possibly-empty key/value list). -/
inductive PolicyDecision
  | allow (policyId : String)
  | deny (policyId reason : String) (meta : List (String × MetaVal))
deriving DecidableEq

/-- The `allowed` discriminator of a decision. -/
def PolicyDecision.allowed : PolicyDecision → Bool
  | .allow _ => true
  | .deny .. => false

/-- The `policyId` of a decision. -/
def PolicyDecision.policyId : PolicyDecision → String
  | .allow p => p
  | .deny p _ _ => p

/-- The `reason` of a decision (`undefined` on an allow; the Executor only
reads it on a deny). -/
def PolicyDecision.reason : PolicyDecision → String
  | .allow _ => ""
  | .deny _ r _ => r

/-- `PolicyContext` from `core/interfaces/IPolicy.ts`. -/
structure PolicyContext where
  agentId : String
  walletId : String
  balance : Int
  evaluatedAt : String
deriving DecidableEq

/-- `SpendRecord` — per-agent state of the spending-limit policy. -/
structure SpendRecord where
  totalSpent : Int
  windowStart : Int
deriving DecidableEq

namespace SpendingLimitPolicy

/-- `SpendingLimitPolicy.extractAmount`: transfer → `amount`,
swap → `amountIn`, other kinds → `null`. -/
def extractAmount : Intent → Option Int
  | .transfer _ _ _ _ _ amount _ _ => some amount
  | .swap _ _ _ _ _ _ _ amountIn _ _ => some amountIn
  | _ => none

/-- The denial reason string built by the policy. -/
def denyReason (projectedSpend maxLamports : Int) : String :=
  "Spending limit exceeded: projected " ++ toString projectedSpend ++
    " > limit " ++ toString maxLamports ++ " lamports in current window"

/-- The record after the "Reset window if expired" step of `evaluate`:
`getOrCreateRecord` yields a fresh `{totalSpent: 0, windowStart: now}` when
the agent has none, then the window is reset when `now - windowStart`
exceeds `windowMs`. -/
def windowRecord (windowMs now : Int) (stored : Option SpendRecord) : SpendRecord :=
  let record0 := stored.getD { totalSpent := 0, windowStart := now }
  if now - record0.windowStart > windowMs then
    { totalSpent := 0, windowStart := now }
  else record0

/-- `SpendingLimitPolicy.evaluate`, with the instance fields `maxLamports`,
`windowMs` and the mutable `records` map passed explicitly and the updated
map returned.  `now` stands for `Date.now()`. -/
def evaluate (maxLamports windowMs : Int) (records : List (String × SpendRecord))
    (intent : Intent) (context : PolicyContext) (now : Int) :
    PolicyDecision × List (String × SpendRecord) :=
  match extractAmount intent with
  | none => (.allow "spending-limit", records)
  | some amount =>
    let record := windowRecord windowMs now (lookupA records context.agentId)
    let projectedSpend := record.totalSpent + amount
    if projectedSpend > maxLamports then
      (.deny "spending-limit" (denyReason projectedSpend maxLamports)
        [("currentSpend", .str (toString record.totalSpent)),
         ("requestedAmount", .str (toString amount)),
         ("limit", .str (toString maxLamports))],
       insertA records context.agentId record)
    else
      (.allow "spending-limit",
       insertA records context.agentId { record with totalSpent := projectedSpend })

/-- Fold `evaluate` over a sequence of `(intent, now)` steps for one context,
threading the records map (the policy instance's state across calls). -/
def runSpend (maxLamports windowMs : Int) (context : PolicyContext)
    (records : List (String × SpendRecord)) : List (Intent × Int) → List (String × SpendRecord)
  | [] => records
  | (i, t) :: rest =>
      runSpend maxLamports windowMs context (evaluate maxLamports windowMs records i context t).2 rest

/-- The sum of the amounts of the *allowed* evaluations in a sequence of
`(intent, now)` steps (an allowed step with no extractable amount counts 0). -/
def allowedSum (maxLamports windowMs : Int) (context : PolicyContext)
    (records : List (String × SpendRecord)) : List (Intent × Int) → Int
  | [] => 0
  | (i, t) :: rest =>
      let r := evaluate maxLamports windowMs records i context t
      (if r.1.allowed then (extractAmount i).getD 0 else 0) +
        allowedSum maxLamports windowMs context r.2 rest

theorem evaluate_none_eq (maxLamports windowMs : Int) (records : List (String × SpendRecord))
    (intent : Intent) (context : PolicyContext) (now : Int)
    (hamt : extractAmount intent = none) :
    evaluate maxLamports windowMs records intent context now =
      (.allow "spending-limit", records) := by
  simp [evaluate, hamt]

theorem evaluate_deny_eq (maxLamports windowMs : Int) (records : List (String × SpendRecord))
    (intent : Intent) (context : PolicyContext) (now amount : Int) (r : SpendRecord)
    (hamt : extractAmount intent = some amount)
    (hrec : windowRecord windowMs now (lookupA records context.agentId) = r)
    (hgt : r.totalSpent + amount > maxLamports) :
    evaluate maxLamports windowMs records intent context now =
      (.deny "spending-limit" (denyReason (r.totalSpent + amount) maxLamports)
        [("currentSpend", .str (toString r.totalSpent)),
         ("requestedAmount", .str (toString amount)),
         ("limit", .str (toString maxLamports))],
       insertA records context.agentId r) := by
  simp [evaluate, hamt, hrec, hgt]

theorem evaluate_allow_eq (maxLamports windowMs : Int) (records : List (String × SpendRecord))
    (intent : Intent) (context : PolicyContext) (now amount : Int) (r : SpendRecord)
    (hamt : extractAmount intent = some amount)
    (hrec : windowRecord windowMs now (lookupA records context.agentId) = r)
    (hle : r.totalSpent + amount ≤ maxLamports) :
    evaluate maxLamports windowMs records intent context now =
      (.allow "spending-limit",
       insertA records context.agentId { r with totalSpent := r.totalSpent + amount }) := by
  simp [evaluate, hamt, hrec, not_lt.mpr hle]

/-- Within one accounting window (no reset fires), starting from a committed
spend of `s`, the amounts of the allowed evaluations sum to at most
`maxLamports - s`. -/
theorem allowedSum_le_of_record (maxLamports windowMs : Int) (context : PolicyContext) :
    ∀ (steps : List (Intent × Int)) (records : List (String × SpendRecord)) (s t0 : Int),
      lookupA records context.agentId = some { totalSpent := s, windowStart := t0 } →
      s ≤ maxLamports →
      (∀ p ∈ steps, p.2 - t0 ≤ windowMs) →
      allowedSum maxLamports windowMs context records steps ≤ maxLamports - s := by
  intro steps
  induction steps with
  | nil =>
    intro records s t0 _ hs _
    simp only [allowedSum]
    omega
  | cons p rest ih =>
    obtain ⟨i, t⟩ := p
    intro records s t0 hlook hs hsteps
    have ht : t - t0 ≤ windowMs := hsteps (i, t) (List.mem_cons_self _ _)
    have hrest : ∀ q ∈ rest, q.2 - t0 ≤ windowMs :=
      fun q hq => hsteps q (List.mem_cons_of_mem _ hq)
    cases hamt : extractAmount i with
    | none =>
      have heval := evaluate_none_eq maxLamports windowMs records i context t hamt
      have hrec2 := ih records s t0 hlook hs hrest
      simp only [allowedSum, heval, PolicyDecision.allowed, hamt, if_true,
        Option.getD_none]
      omega
    | some a =>
      have hrec : windowRecord windowMs t (lookupA records context.agentId) =
          { totalSpent := s, windowStart := t0 } := by
        rw [hlook]
        unfold windowRecord
        simp only [Option.getD_some]
        rw [if_neg (by omega)]
      by_cases hproj : s + a > maxLamports
      · have heval := evaluate_deny_eq maxLamports windowMs records i context t a
          { totalSpent := s, windowStart := t0 } hamt hrec hproj
        have hlook2 : lookupA
            (insertA records context.agentId { totalSpent := s, windowStart := t0 })
            context.agentId = some { totalSpent := s, windowStart := t0 } :=
          lookupA_insertA_self _ _ _
        have hrec2 := ih _ s t0 hlook2 hs hrest
        simp only [allowedSum, heval, PolicyDecision.allowed, Bool.false_eq_true,
          if_false]
        omega
      · have hle : s + a ≤ maxLamports := by omega
        have heval := evaluate_allow_eq maxLamports windowMs records i context t a
          { totalSpent := s, windowStart := t0 } hamt hrec hle
        have hlook2 : lookupA
            (insertA records context.agentId { totalSpent := s + a, windowStart := t0 })
            context.agentId = some { totalSpent := s + a, windowStart := t0 } :=
          lookupA_insertA_self _ _ _
        have hrec2 := ih _ (s + a) t0 hlook2 hle hrest
        simp only [allowedSum, heval, PolicyDecision.allowed, hamt, if_true,
          Option.getD_some]
        omega

end SpendingLimitPolicy

/-- **C1**: for the spending-limit policy with limit `L`, on any evaluation
that extracts an amount, with `r` the agent's record after the window-reset
step: if `r.totalSpent + amount > L` the decision is `Deny` carrying the
current/requested/limit values as metadata and the stored record keeps
`totalSpent = r.totalSpent` (the denial commits nothing); otherwise the
record is committed to `r.totalSpent + amount` and the decision is `Allow`.
Consequently (third conjunct), starting from a fresh record inside one
accounting window, the sum of the allowed amounts never exceeds `L`. -/
theorem spendingLimit_deny_allow_and_window_bound
    (maxLamports windowMs : Int) (records : List (String × SpendRecord))
    (intent : Intent) (context : PolicyContext) (now amount : Int) (r : SpendRecord)
    (hamt : SpendingLimitPolicy.extractAmount intent = some amount)
    (hrec : SpendingLimitPolicy.windowRecord windowMs now (lookupA records context.agentId) = r) :
    (r.totalSpent + amount > maxLamports →
      SpendingLimitPolicy.evaluate maxLamports windowMs records intent context now =
        (.deny "spending-limit"
          (SpendingLimitPolicy.denyReason (r.totalSpent + amount) maxLamports)
          [("currentSpend", .str (toString r.totalSpent)),
           ("requestedAmount", .str (toString amount)),
           ("limit", .str (toString maxLamports))],
         insertA records context.agentId r)) ∧
    (r.totalSpent + amount ≤ maxLamports →
      SpendingLimitPolicy.evaluate maxLamports windowMs records intent context now =
        (.allow "spending-limit",
         insertA records context.agentId { r with totalSpent := r.totalSpent + amount })) ∧
    (∀ (steps : List (Intent × Int)) (records2 : List (String × SpendRecord)) (t0 : Int),
      0 ≤ maxLamports →
      lookupA records2 context.agentId = some { totalSpent := 0, windowStart := t0 } →
      (∀ p ∈ steps, p.2 - t0 ≤ windowMs) →
      SpendingLimitPolicy.allowedSum maxLamports windowMs context records2 steps ≤ maxLamports) := by
  refine ⟨?_, ?_, ?_⟩
  · intro hgt
    exact SpendingLimitPolicy.evaluate_deny_eq maxLamports windowMs records intent context
      now amount r hamt hrec hgt
  · intro hle
    exact SpendingLimitPolicy.evaluate_allow_eq maxLamports windowMs records intent context
      now amount r hamt hrec hle
  · intro steps records2 t0 hL hlook hsteps
    have h := SpendingLimitPolicy.allowedSum_le_of_record maxLamports windowMs context
      steps records2 0 t0 hlook hL hsteps
    omega

/-- Witness for C1 at a concrete input: limit 10, empty state, a transfer of
25 at time 5 by agent `a` is denied with the projected/current/limit
metadata, and the stored record keeps `totalSpent = 0`. -/
theorem spendingLimit_deny_allow_and_window_bound_witness :
    SpendingLimitPolicy.evaluate 10 60000 []
      (Intent.transfer "i" "solana" "w" "t" "bob" 25 none none)
      { agentId := "a", walletId := "w", balance := 0, evaluatedAt := "t" } 5 =
      (.deny "spending-limit" (SpendingLimitPolicy.denyReason 25 10)
        [("currentSpend", .str "0"), ("requestedAmount", .str "25"),
         ("limit", .str "10")],
       [("a", { totalSpent := 0, windowStart := 5 })]) := by
  have h := spendingLimit_deny_allow_and_window_bound 10 60000 []
    (Intent.transfer "i" "solana" "w" "t" "bob" 25 none none)
    { agentId := "a", walletId := "w", balance := 0, evaluatedAt := "t" } 5 25
    { totalSpent := 0, windowStart := 5 } rfl (by decide)
  exact (h.1 (by decide)).trans (by decide)

/-- A registered policy's `evaluate` method: a function of the intent and
context over the policy's private state `σ`, returning the decision and the
updated state (the TypeScript method mutates the instance). -/
def PolicyFn (σ : Type) : Type :=
  Intent → PolicyContext → σ → PolicyDecision × σ

namespace PolicyEngine

/-- `PolicyEngine.evaluateAll`: walk the registered policies in registration
order; on the first decision with `allowed = false` return it (later
policies are not run and keep their state); if every policy allows, return
the synthetic engine `Allow`.  The engine's policy list with the policies'
current states is threaded explicitly. -/
def evaluateAll {σ : Type} (intent : Intent) (context : PolicyContext) :
    List (PolicyFn σ × σ) → PolicyDecision × List (PolicyFn σ × σ)
  | [] => (.allow "policy-engine", [])
  | (f, s) :: rest =>
    let r := f intent context s
    if r.1.allowed then
      let res := evaluateAll intent context rest
      (res.1, (f, r.2) :: res.2)
    else
      (r.1, (f, r.2) :: rest)

/-- The evaluation order contract of the engine, as an inductive run
relation: policies are visited in registration order; a deny stops the walk,
returning that policy's decision with every later policy untouched (same
function, same state); if the walk falls off the end the result is the
engine's synthetic `Allow`. -/
inductive EngineRun {σ : Type} (intent : Intent) (context : PolicyContext) :
    List (PolicyFn σ × σ) → PolicyDecision → List (PolicyFn σ × σ) → Prop
  | nil : EngineRun intent context [] (.allow "policy-engine") []
  | denyHead (f : PolicyFn σ) (s : σ) (rest : List (PolicyFn σ × σ)) :
      (f intent context s).1.allowed = false →
      EngineRun intent context ((f, s) :: rest) (f intent context s).1
        ((f, (f intent context s).2) :: rest)
  | allowHead (f : PolicyFn σ) (s : σ) (rest rest2 : List (PolicyFn σ × σ))
      (d : PolicyDecision) :
      (f intent context s).1.allowed = true →
      EngineRun intent context rest d rest2 →
      EngineRun intent context ((f, s) :: rest) d ((f, (f intent context s).2) :: rest2)

theorem evaluateAll_run {σ : Type} (intent : Intent) (context : PolicyContext) :
    ∀ ps : List (PolicyFn σ × σ),
      EngineRun intent context ps (evaluateAll intent context ps).1
        (evaluateAll intent context ps).2 := by
  intro ps
  induction ps with
  | nil => exact EngineRun.nil
  | cons p rest ih =>
    obtain ⟨f, s⟩ := p
    by_cases h : (f intent context s).1.allowed = true
    · have he : evaluateAll intent context ((f, s) :: rest) =
          ((evaluateAll intent context rest).1,
           (f, (f intent context s).2) :: (evaluateAll intent context rest).2) := by
        simp [evaluateAll, h]
      rw [he]
      exact EngineRun.allowHead f s rest _ _ h ih
    · have hb : (f intent context s).1.allowed = false := by
        cases hx : (f intent context s).1.allowed
        · rfl
        · exact absurd hx h
      have he : evaluateAll intent context ((f, s) :: rest) =
          ((f intent context s).1, (f, (f intent context s).2) :: rest) := by
        simp [evaluateAll, hb]
      rw [he]
      exact EngineRun.denyHead f s rest hb

/-- In any engine run, a denied result is the verbatim decision of one of
the registered policies, the policies before it were each evaluated (their
states updated), and every policy after it is untouched. -/
theorem engineRun_deny {σ : Type} (intent : Intent) (context : PolicyContext) :
    ∀ (ps ps2 : List (PolicyFn σ × σ)) (d : PolicyDecision),
      EngineRun intent context ps d ps2 →
      d.allowed = false →
      ∃ (pre pre2 : List (PolicyFn σ × σ)) (f : PolicyFn σ) (s : σ)
        (post : List (PolicyFn σ × σ)),
        ps = pre ++ (f, s) :: post ∧
        ps2 = pre2 ++ (f, (f intent context s).2) :: post ∧
        pre2.length = pre.length ∧
        d = (f intent context s).1 := by
  intro ps ps2 d hrun
  induction hrun with
  | nil => intro hd; simp [PolicyDecision.allowed] at hd
  | denyHead f s rest hf =>
    intro _
    exact ⟨[], [], f, s, rest, rfl, rfl, rfl, rfl⟩
  | allowHead f s rest rest2 d hf _ ih =>
    intro hd
    obtain ⟨pre, pre2, g, t, post, h1, h2, h3, h4⟩ := ih hd
    exact ⟨(f, s) :: pre, (f, (f intent context s).2) :: pre2, g, t, post,
      by rw [h1]; rfl, by rw [h2]; rfl, by simp [h3], h4⟩

end PolicyEngine

/-- **C2**: `evaluateAll` walks the registered policies in registration
order (first conjunct: the run relation holds of its result, so a denial
short-circuits with the denying policy's verbatim decision and every
later-registered policy keeps its function and state untouched); with zero
registered policies it returns the engine's synthetic `Allow` (second
conjunct); and a denied overall result always is the decision of one of the
registered policies, all policies past it untouched (third conjunct). -/
theorem policyEngine_evaluateAll_contract {σ : Type} (intent : Intent)
    (context : PolicyContext) :
    (∀ ps : List (PolicyFn σ × σ),
      PolicyEngine.EngineRun intent context ps
        (PolicyEngine.evaluateAll intent context ps).1
        (PolicyEngine.evaluateAll intent context ps).2) ∧
    (PolicyEngine.evaluateAll intent context ([] : List (PolicyFn σ × σ)) =
      (.allow "policy-engine", [])) ∧
    (∀ ps : List (PolicyFn σ × σ),
      (PolicyEngine.evaluateAll intent context ps).1.allowed = false →
      ∃ (pre pre2 : List (PolicyFn σ × σ)) (f : PolicyFn σ) (s : σ)
        (post : List (PolicyFn σ × σ)),
        ps = pre ++ (f, s) :: post ∧
        (PolicyEngine.evaluateAll intent context ps).2 =
          pre2 ++ (f, (f intent context s).2) :: post ∧
        pre2.length = pre.length ∧
        (PolicyEngine.evaluateAll intent context ps).1 = (f intent context s).1) := by
  refine ⟨PolicyEngine.evaluateAll_run intent context, rfl, ?_⟩
  intro ps hd
  exact PolicyEngine.engineRun_deny intent context ps _ _
    (PolicyEngine.evaluateAll_run intent context ps) hd

/-- `PipelineStage` from `core/types/ExecutionResult.ts`. -/
inductive PipelineStage
  | validation | policy | build | sign | send | confirm
deriving DecidableEq

/-- The string form of a stage, as used in the `ExecutionError` message. -/
def PipelineStage.toStr : PipelineStage → String
  | .validation => "validation"
  | .policy => "policy"
  | .build => "build"
  | .sign => "sign"
  | .send => "send"
  | .confirm => "confirm"

/-- An exception value a pipeline stage can throw, as the Executor's `catch`
block distinguishes them: `ExecutionError` (carrying a stage), a
`PolicyViolation`, a `SigningError` (carrying the wallet id — the class has
no field for key material), or any other `Error`. -/
inductive Thrown
  | execError (stage : PipelineStage) (message : String)
  | policyViolation (policyId reason : String)
  | signingError (walletId message : String)
  | generic (message : String)
deriving DecidableEq

/-- The `.message` of a thrown error, per the constructors of
`ExecutionError`, `PolicyViolation` and `SigningError`. -/
def Thrown.msg : Thrown → String
  | .execError stage m => "Pipeline failed at \"" ++ stage.toStr ++ "\": " ++ m
  | .policyViolation pid reason => "Policy \"" ++ pid ++ "\" denied: " ++ reason
  | .signingError wid m => "Signing failed for wallet \"" ++ wid ++ "\": " ++ m
  | .generic m => m

/-- `ExecutionResult` from `core/types/ExecutionResult.ts`: the tagged union
`Success | Failure` (the optional `cause` keeps the thrown error). -/
inductive ExecutionResult
  | success (txHash chain confirmedAt : String) (elapsedMs : Int)
  | failure (errorCode errorMessage : String) (failedAt : PipelineStage)
      (cause : Option Thrown)
deriving DecidableEq

/-- `ChainTransaction`: the adapter's built transaction (payload bytes and
the program ids it touches). -/
structure ChainTransaction where
  payload : List Nat
  programIds : List String
deriving DecidableEq

/-- The outcome of every collaborator call the Executor makes, supplied as
data: `Except.error e` models that call throwing `e`.  `validation` models
`IntentSchema.safeParse` (`false` = failed, with the Zod error message);
`policyDecision` is the outcome of `policyEngine.evaluateAll`;
`resolveAdapter` is `router.resolve`; the rest are the adapter's and
Signer's methods.  `nowIso`/`elapsedMs` stand for the clock reads. -/
structure ExecEnv where
  validationOk : Bool
  validationMessage : String
  getBalance : Except Thrown Int
  policyDecision : Except Thrown PolicyDecision
  resolveAdapter : Except Thrown Unit
  buildTransaction : Except Thrown ChainTransaction
  signPayload : Except Thrown (List Nat)
  sendTransaction : Except Thrown String
  confirmTransaction : Except Thrown Bool
  nowIso : String
  elapsedMs : Int

/-- The collaborator invocations the pipeline can make, in order, used to
record which stages actually ran. -/
inductive StageCall
  | getBalance | evaluatePolicies | resolveAdapter | buildTransaction
  | sign | sendTransaction | confirmTransaction
deriving DecidableEq

namespace Executor

/-- The stage the `catch` block of `Executor.execute` derives:
`error instanceof ExecutionError ? error.stage :
 error instanceof PolicyViolation ? "policy" : "send"`. -/
def catchStage : Thrown → PipelineStage
  | .execError stage _ => stage
  | .policyViolation _ _ => .policy
  | _ => .send

/-- The error code the `catch` block derives: an `ExecutionError`'s own code
(always `EXECUTION_ERROR`), else `PIPELINE_ERROR`. -/
def catchCode : Thrown → String
  | .execError _ _ => "EXECUTION_ERROR"
  | _ => "PIPELINE_ERROR"

/-- The `Failure` the `catch` block returns for a thrown error. -/
def catchFailure (e : Thrown) : ExecutionResult :=
  .failure (catchCode e) e.msg (catchStage e) (some e)

/-- `Executor.execute`: the six pipeline stages in order, each collaborator
outcome drawn from `env`; any thrown error falls through to the `catch`
block.  Returns the result together with the list of collaborator calls
made (for the stage-ordering claims). -/
def execute (env : ExecEnv) (intent : Intent) : ExecutionResult × List StageCall :=
  if env.validationOk = false then
    (.failure "VALIDATION_ERROR" ("Invalid intent: " ++ env.validationMessage)
      .validation none, [])
  else
    match env.getBalance with
    | .error e => (catchFailure e, [.getBalance])
    | .ok _balance =>
      match env.policyDecision with
      | .error e => (catchFailure e, [.getBalance, .evaluatePolicies])
      | .ok decision =>
        if decision.allowed = false then
          (.failure "POLICY_VIOLATION" decision.reason .policy
            (some (.policyViolation decision.policyId decision.reason)),
           [.getBalance, .evaluatePolicies])
        else
          match env.resolveAdapter with
          | .error e =>
              (catchFailure e, [.getBalance, .evaluatePolicies, .resolveAdapter])
          | .ok _ =>
            match env.buildTransaction with
            | .error e =>
                (catchFailure e,
                 [.getBalance, .evaluatePolicies, .resolveAdapter, .buildTransaction])
            | .ok _chainTx =>
              match env.signPayload with
              | .error e =>
                  (catchFailure e,
                   [.getBalance, .evaluatePolicies, .resolveAdapter,
                    .buildTransaction, .sign])
              | .ok _signedTx =>
                match env.sendTransaction with
                | .error e =>
                    (catchFailure e,
                     [.getBalance, .evaluatePolicies, .resolveAdapter,
                      .buildTransaction, .sign, .sendTransaction])
                | .ok txHash =>
                  match env.confirmTransaction with
                  | .error e =>
                      (catchFailure e,
                       [.getBalance, .evaluatePolicies, .resolveAdapter,
                        .buildTransaction, .sign, .sendTransaction,
                        .confirmTransaction])
                  | .ok confirmed =>
                    if confirmed = false then
                      (.failure "CONFIRMATION_FAILED"
                        ("Transaction " ++ txHash ++ " failed to confirm")
                        .confirm none,
                       [.getBalance, .evaluatePolicies, .resolveAdapter,
                        .buildTransaction, .sign, .sendTransaction,
                        .confirmTransaction])
                    else
                      (.success txHash intent.chain env.nowIso env.elapsedMs,
                       [.getBalance, .evaluatePolicies, .resolveAdapter,
                        .buildTransaction, .sign, .sendTransaction,
                        .confirmTransaction])

end Executor

/-- **C3**: the pipeline never skips forward past a failed stage: a failed
validation means the balance lookup and the policy engine are never
invoked; a policy denial means the adapter's `buildTransaction` is never
invoked; a build failure means the Signer's `sign` is never invoked. -/
theorem executor_monotonic_staging (env : ExecEnv) (intent : Intent) :
    (env.validationOk = false →
      StageCall.getBalance ∉ (Executor.execute env intent).2 ∧
      StageCall.evaluatePolicies ∉ (Executor.execute env intent).2) ∧
    (∀ d, env.policyDecision = .ok d → d.allowed = false →
      StageCall.buildTransaction ∉ (Executor.execute env intent).2) ∧
    (∀ e, env.buildTransaction = .error e →
      StageCall.sign ∉ (Executor.execute env intent).2) := by
  refine ⟨?_, ?_, ?_⟩
  · intro hv
    simp [Executor.execute, hv]
  · intro d hd hda
    by_cases hv : env.validationOk = false
    · simp [Executor.execute, hv]
    · cases hb : env.getBalance with
      | error e => simp [Executor.execute, hv, hb]
      | ok b => simp [Executor.execute, hv, hb, hd, hda]
  · intro e hbuild
    by_cases hv : env.validationOk = false
    · simp [Executor.execute, hv]
    · cases hb : env.getBalance with
      | error e2 => simp [Executor.execute, hv, hb]
      | ok b =>
        cases hp : env.policyDecision with
        | error e2 => simp [Executor.execute, hv, hb, hp]
        | ok d =>
          by_cases hda : d.allowed = false
          · simp [Executor.execute, hv, hb, hp, hda]
          · cases hr : env.resolveAdapter with
            | error e2 => simp [Executor.execute, hv, hb, hp, hda, hr]
            | ok u => simp [Executor.execute, hv, hb, hp, hda, hr, hbuild]

/-- A sample transfer intent used by concrete witnesses. -/
def sampleTransfer : Intent :=
  .transfer "i" "solana" "w" "t" "bob" 5 none none

/-- A sample environment in which validation fails. -/
def envValidationFail : ExecEnv :=
  { validationOk := false, validationMessage := "bad intent",
    getBalance := .ok 0, policyDecision := .ok (.allow "policy-engine"),
    resolveAdapter := .ok (), buildTransaction := .ok { payload := [], programIds := [] },
    signPayload := .ok [], sendTransaction := .ok "sig",
    confirmTransaction := .ok true, nowIso := "t", elapsedMs := 0 }

/-- Witness for C3 at a concrete input: with validation failing, the
balance lookup is never invoked. -/
theorem executor_monotonic_staging_witness :
    StageCall.getBalance ∉ (Executor.execute envValidationFail sampleTransfer).2 ∧
    StageCall.evaluatePolicies ∉ (Executor.execute envValidationFail sampleTransfer).2 :=
  (executor_monotonic_staging envValidationFail sampleTransfer).1 (by decide)

/-- The error, if any, that a stage throws and the `catch` block of
`Executor.execute` receives for a given environment (mirrors the control
flow of `execute`: exits taken before a throwing stage mask it). -/
def ExecEnv.thrownOutcome (env : ExecEnv) : Option Thrown :=
  if env.validationOk = false then none
  else match env.getBalance with
    | .error e => some e
    | .ok _ =>
      match env.policyDecision with
      | .error e => some e
      | .ok d =>
        if d.allowed = false then none
        else match env.resolveAdapter with
          | .error e => some e
          | .ok _ =>
            match env.buildTransaction with
            | .error e => some e
            | .ok _ =>
              match env.signPayload with
              | .error e => some e
              | .ok _ =>
                match env.sendTransaction with
                | .error e => some e
                | .ok _ =>
                  match env.confirmTransaction with
                  | .error e => some e
                  | .ok _ => none

/-- A sample environment whose policy stage throws a `PolicyViolation`
(a policy's `evaluate` rejecting by exception rather than by returning a
deny decision). -/
def envPolicyThrow : ExecEnv :=
  { validationOk := true, validationMessage := "",
    getBalance := .ok 0,
    policyDecision := .error (.policyViolation "spending-limit" "denied"),
    resolveAdapter := .ok (), buildTransaction := .ok { payload := [], programIds := [] },
    signPayload := .ok [], sendTransaction := .ok "sig",
    confirmTransaction := .ok true, nowIso := "t", elapsedMs := 0 }

/-- Counterexample to C4 as stated: a thrown `PolicyViolation` is not an
`ExecutionError`, yet the catch block tags the failure `policy`, not the
claimed default `send`. -/
theorem executor_catch_default_counterexample :
    (Executor.execute envPolicyThrow sampleTransfer).1 =
      .failure "PIPELINE_ERROR"
        (Thrown.msg (.policyViolation "spending-limit" "denied"))
        .policy (some (.policyViolation "spending-limit" "denied")) ∧
    PipelineStage.policy ≠ PipelineStage.send := by
  constructor
  · decide
  · decide

/-- **C4** (amended): `Executor.execute` always returns a `Success` or
`Failure` value (first conjunct); every exception a stage throws is caught
and converted into a `Failure` whose `failedAt` is taken from the typed
pipeline error (`ExecutionError`) when present, is `policy` for a thrown
`PolicyViolation`, and otherwise defaults to `send` (remaining
conjuncts). -/
theorem executor_catch_contract (env : ExecEnv) (intent : Intent) :
    ((∃ h c ca el, (Executor.execute env intent).1 = .success h c ca el) ∨
     (∃ ec em st cz, (Executor.execute env intent).1 = .failure ec em st cz)) ∧
    (∀ s m, Executor.catchStage (.execError s m) = s) ∧
    (∀ p r, Executor.catchStage (.policyViolation p r) = .policy) ∧
    (∀ w m, Executor.catchStage (.signingError w m) = .send) ∧
    (∀ m, Executor.catchStage (.generic m) = .send) ∧
    (∀ e, env.thrownOutcome = some e →
      (Executor.execute env intent).1 =
        .failure (Executor.catchCode e) e.msg (Executor.catchStage e) (some e)) := by
  refine ⟨?_, fun _ _ => rfl, fun _ _ => rfl, fun _ _ => rfl, fun _ => rfl, ?_⟩
  · cases h : (Executor.execute env intent).1 with
    | success a b c d => exact Or.inl ⟨a, b, c, d, rfl⟩
    | failure a b c d => exact Or.inr ⟨a, b, c, d, rfl⟩
  · intro e he
    by_cases hv : env.validationOk = false
    · simp [ExecEnv.thrownOutcome, hv] at he
    · cases hb : env.getBalance with
      | error e2 =>
        simp [ExecEnv.thrownOutcome, hv, hb] at he
        subst he
        simp [Executor.execute, hv, hb, Executor.catchFailure]
      | ok b =>
        cases hp : env.policyDecision with
        | error e2 =>
          simp [ExecEnv.thrownOutcome, hv, hb, hp] at he
          subst he
          simp [Executor.execute, hv, hb, hp, Executor.catchFailure]
        | ok d =>
          by_cases hda : d.allowed = false
          · simp [ExecEnv.thrownOutcome, hv, hb, hp, hda] at he
          · cases hr : env.resolveAdapter with
            | error e2 =>
              simp [ExecEnv.thrownOutcome, hv, hb, hp, hda, hr] at he
              subst he
              simp [Executor.execute, hv, hb, hp, hda, hr, Executor.catchFailure]
            | ok u =>
              cases hbu : env.buildTransaction with
              | error e2 =>
                simp [ExecEnv.thrownOutcome, hv, hb, hp, hda, hr, hbu] at he
                subst he
                simp [Executor.execute, hv, hb, hp, hda, hr, hbu, Executor.catchFailure]
              | ok tx =>
                cases hs : env.signPayload with
                | error e2 =>
                  simp [ExecEnv.thrownOutcome, hv, hb, hp, hda, hr, hbu, hs] at he
                  subst he
                  simp [Executor.execute, hv, hb, hp, hda, hr, hbu, hs,
                    Executor.catchFailure]
                | ok st =>
                  cases hse : env.sendTransaction with
                  | error e2 =>
                    simp [ExecEnv.thrownOutcome, hv, hb, hp, hda, hr, hbu, hs, hse] at he
                    subst he
                    simp [Executor.execute, hv, hb, hp, hda, hr, hbu, hs, hse,
                      Executor.catchFailure]
                  | ok txh =>
                    cases hc : env.confirmTransaction with
                    | error e2 =>
                      simp [ExecEnv.thrownOutcome, hv, hb, hp, hda, hr, hbu, hs, hse,
                        hc] at he
                      subst he
                      simp [Executor.execute, hv, hb, hp, hda, hr, hbu, hs, hse, hc,
                        Executor.catchFailure]
                    | ok cf =>
                      simp [ExecEnv.thrownOutcome, hv, hb, hp, hda, hr, hbu, hs, hse,
                        hc] at he

/-- A sample environment whose balance lookup throws a generic error. -/
def envBalanceThrow : ExecEnv :=
  { validationOk := true, validationMessage := "",
    getBalance := .error (.generic "rpc down"),
    policyDecision := .ok (.allow "policy-engine"),
    resolveAdapter := .ok (), buildTransaction := .ok { payload := [], programIds := [] },
    signPayload := .ok [], sendTransaction := .ok "sig",
    confirmTransaction := .ok true, nowIso := "t", elapsedMs := 0 }

/-- Witness for C4 at a concrete input: an environment whose balance lookup
throws a generic error yields a `PIPELINE_ERROR` failure at the default
`send` stage. -/
theorem executor_catch_contract_witness :
    (Executor.execute envBalanceThrow sampleTransfer).1 =
      .failure "PIPELINE_ERROR" "rpc down" .send (some (.generic "rpc down")) :=
  (executor_catch_contract envBalanceThrow sampleTransfer).2.2.2.2.2
    (.generic "rpc down") (by decide)

/-- `SigningError` from `core/errors/SigningError.ts`: it stores the wallet
id and a message — the class has no field that could hold key material.
(It extends `DomainError`, not `ExecutionError`.) -/
structure SigningError where
  walletId : String
  message : String
deriving DecidableEq

namespace Signer

/-- `Signer.sign`: retrieve the wallet's secret key from the key store,
then perform the cryptographic signing (`Keypair.fromSecretKey` /
`Transaction.from`, the keypair signing call, and `serialize`, collapsed into the
fallible external collaborator `signBytes`); any failure in either step is
rethrown as a `SigningError` carrying the wallet id and the underlying
message. -/
def sign (retrieve : String → Except String (List Nat))
    (signBytes : List Nat → List Nat → Except String (List Nat))
    (walletId : String) (payload : List Nat) : Except SigningError (List Nat) :=
  match retrieve walletId with
  | .error m => .error { walletId := walletId, message := m }
  | .ok secretKey =>
    match signBytes secretKey payload with
    | .error m => .error { walletId := walletId, message := m }
    | .ok signedTx => .ok signedTx

end Signer

/-- A sample environment whose sign stage throws a `SigningError`, every
earlier stage succeeding. -/
def envSignThrow : ExecEnv :=
  { validationOk := true, validationMessage := "",
    getBalance := .ok 0, policyDecision := .ok (.allow "policy-engine"),
    resolveAdapter := .ok (), buildTransaction := .ok { payload := [], programIds := [] },
    signPayload := .error (.signingError "w1" "boom"),
    sendTransaction := .ok "sig", confirmTransaction := .ok true,
    nowIso := "t", elapsedMs := 0 }

/-- Counterexample to C5 as stated: a `SigningError` thrown at the sign
stage reaches the Executor's catch block, which tags the failure `send`
(the default — `SigningError` is neither an `ExecutionError` nor a
`PolicyViolation`), not the claimed `sign`. -/
theorem signer_error_stage_counterexample :
    (Executor.execute envSignThrow sampleTransfer).1 =
      .failure "PIPELINE_ERROR" (Thrown.msg (.signingError "w1" "boom")) .send
        (some (.signingError "w1" "boom")) ∧
    PipelineStage.send ≠ PipelineStage.sign := by
  constructor
  · decide
  · decide

/-- **C5** (amended): every retrieval or signing failure inside
`Signer.sign` raises a `SigningError` that carries the wallet id and only
the underlying failure message (the error type has no key field), and when
that error reaches `Executor.execute` it is reported as a `Failure` whose
`failedAt` stage is `send` — the catch block's default, since
`SigningError` is not a typed `ExecutionError` — not `sign`. -/
theorem signer_error_contract (retrieve : String → Except String (List Nat))
    (signBytes : List Nat → List Nat → Except String (List Nat))
    (walletId : String) (payload : List Nat) (env : ExecEnv) (intent : Intent)
    (w m : String) :
    (∀ e, Signer.sign retrieve signBytes walletId payload = .error e →
      e = { walletId := walletId, message := e.message }) ∧
    (retrieve walletId = .error m →
      Signer.sign retrieve signBytes walletId payload =
        .error { walletId := walletId, message := m }) ∧
    (∀ k, retrieve walletId = .ok k → signBytes k payload = .error m →
      Signer.sign retrieve signBytes walletId payload =
        .error { walletId := walletId, message := m }) ∧
    (env.validationOk = true → (∃ b, env.getBalance = .ok b) →
      (∃ d, env.policyDecision = .ok d ∧ d.allowed = true) →
      env.resolveAdapter = .ok () → (∃ tx, env.buildTransaction = .ok tx) →
      env.signPayload = .error (.signingError w m) →
      (Executor.execute env intent).1 =
        .failure "PIPELINE_ERROR" (Thrown.msg (.signingError w m)) .send
          (some (.signingError w m))) := by
  refine ⟨?_, ?_, ?_, ?_⟩
  · intro e he
    unfold Signer.sign at he
    cases hr : retrieve walletId with
    | error m2 =>
      simp only [hr] at he
      cases he
      rfl
    | ok k =>
      simp only [hr] at he
      cases hs : signBytes k payload with
      | error m2 =>
        simp only [hs] at he
        cases he
        rfl
      | ok s =>
        simp only [hs] at he
        cases he
  · intro hr
    unfold Signer.sign
    rw [hr]
  · intro k hr hs
    unfold Signer.sign
    simp only [hr, hs]
  · rintro hv ⟨b, hb⟩ ⟨d, hp, hda⟩ hr ⟨tx, hbu⟩ hs
    have hda2 : ¬ d.allowed = false := by simp [hda]
    simp [Executor.execute, hv, hb, hp, hda2, hr, hbu, hs, Executor.catchFailure,
      Executor.catchCode, Executor.catchStage]

/-- Witness for C5 at a concrete input: a key store failing retrieval for
wallet `w1` makes `Signer.sign` raise the `SigningError` carrying `w1` and
the message, and the sample sign-throw environment produces the
`send`-tagged pipeline failure. -/
theorem signer_error_contract_witness :
    (Signer.sign (fun _ => .error "no key") (fun _ _ => .ok []) "w1" [1, 2] =
      .error { walletId := "w1", message := "no key" }) ∧
    (Executor.execute envSignThrow sampleTransfer).1 =
      .failure "PIPELINE_ERROR" (Thrown.msg (.signingError "w1" "boom")) .send
        (some (.signingError "w1" "boom")) := by
  constructor
  · exact (signer_error_contract (fun _ => .error "no key") (fun _ _ => .ok [])
      "w1" [1, 2] envSignThrow sampleTransfer "w1" "no key").2.1 rfl
  · exact (signer_error_contract (fun _ => .error "no key") (fun _ _ => .ok [])
      "w1" [1, 2] envSignThrow sampleTransfer "w1" "boom").2.2.2 rfl
      ⟨0, rfl⟩ ⟨.allow "policy-engine", rfl, rfl⟩ rfl ⟨{ payload := [], programIds := [] }, rfl⟩ rfl

/-- **C8**: when every stage up to `send` succeeds and the adapter's
`confirmTransaction` resolves `false`, `execute` returns the
`CONFIRMATION_FAILED` failure tagged `confirm` as an ordinary result value
(its `cause` is empty: it does not go through the catch block). -/
theorem executor_confirmation_failed (env : ExecEnv) (intent : Intent) (txHash : String)
    (hv : env.validationOk = true) (hb : ∃ b, env.getBalance = .ok b)
    (hp : ∃ d, env.policyDecision = .ok d ∧ d.allowed = true)
    (hr : env.resolveAdapter = .ok ()) (hbu : ∃ tx, env.buildTransaction = .ok tx)
    (hs : ∃ s, env.signPayload = .ok s)
    (hse : env.sendTransaction = .ok txHash)
    (hc : env.confirmTransaction = .ok false) :
    (Executor.execute env intent).1 =
      .failure "CONFIRMATION_FAILED"
        ("Transaction " ++ txHash ++ " failed to confirm") .confirm none := by
  obtain ⟨b, hb⟩ := hb
  obtain ⟨d, hp, hda⟩ := hp
  obtain ⟨tx, hbu⟩ := hbu
  obtain ⟨s, hs⟩ := hs
  have hda2 : ¬ d.allowed = false := by simp [hda]
  simp [Executor.execute, hv, hb, hp, hda2, hr, hbu, hs, hse, hc]

/-- A sample environment where all stages succeed but confirmation resolves
`false`. -/
def envConfirmFalse : ExecEnv :=
  { validationOk := true, validationMessage := "",
    getBalance := .ok 0, policyDecision := .ok (.allow "policy-engine"),
    resolveAdapter := .ok (), buildTransaction := .ok { payload := [], programIds := [] },
    signPayload := .ok [], sendTransaction := .ok "sig",
    confirmTransaction := .ok false, nowIso := "t", elapsedMs := 0 }

/-- Witness for C8 at a concrete input. -/
theorem executor_confirmation_failed_witness :
    (Executor.execute envConfirmFalse sampleTransfer).1 =
      .failure "CONFIRMATION_FAILED" "Transaction sig failed to confirm"
        .confirm none := by
  have h := executor_confirmation_failed envConfirmFalse sampleTransfer "sig"
    rfl ⟨0, rfl⟩ ⟨.allow "policy-engine", rfl, rfl⟩ rfl
    ⟨{ payload := [], programIds := [] }, rfl⟩ ⟨[], rfl⟩ rfl rfl
  exact h.trans (by decide)

namespace RateLimitPolicy

/-- The fixed 60-second window of the rate-limit policy. -/
def windowMs : Int := 60000

/-- The denial reason string built by the policy. -/
def denyReason (currentRate maxTxPerMinute : Nat) : String :=
  "Rate limit exceeded: " ++ toString currentRate ++ "/" ++
    toString maxTxPerMinute ++ " tx/min"

/-- `RateLimitPolicy.evaluate` (the intent argument is unused in the
source): fetch the agent's timestamp list (empty when absent), prune it to
entries strictly newer than `now - 60000` and store the pruned list; deny
when the pruned count reaches `maxTxPerMinute`, else append `now` and
allow. -/
def evaluate (maxTxPerMinute : Nat) (timestamps : List (String × List Int))
    (context : PolicyContext) (now : Int) :
    PolicyDecision × List (String × List Int) :=
  let agentTimestamps := (lookupA timestamps context.agentId).getD []
  let cutoff := now - windowMs
  let recentTimestamps := agentTimestamps.filter (fun ts => cutoff < ts)
  if maxTxPerMinute ≤ recentTimestamps.length then
    (.deny "rate-limit" (denyReason recentTimestamps.length maxTxPerMinute)
      [("currentRate", .num recentTimestamps.length),
       ("limit", .num maxTxPerMinute)],
     insertA timestamps context.agentId recentTimestamps)
  else
    (.allow "rate-limit",
     insertA timestamps context.agentId (recentTimestamps ++ [now]))

/-- Fold `evaluate` over a sequence of call times for one agent, threading
the policy's state. -/
def runRate (maxTxPerMinute : Nat) (context : PolicyContext)
    (timestamps : List (String × List Int)) : List Int → List (String × List Int)
  | [] => timestamps
  | t :: rest =>
      runRate maxTxPerMinute context
        (evaluate maxTxPerMinute timestamps context t).2 rest

/-- Whether every call in a sequence of call times is allowed. -/
def allAllowed (maxTxPerMinute : Nat) (context : PolicyContext)
    (timestamps : List (String × List Int)) : List Int → Bool
  | [] => true
  | t :: rest =>
      (evaluate maxTxPerMinute timestamps context t).1.allowed &&
        allAllowed maxTxPerMinute context
          (evaluate maxTxPerMinute timestamps context t).2 rest

theorem rl_evaluate_deny_eq (maxTxPerMinute : Nat) (timestamps : List (String × List Int))
    (context : PolicyContext) (now : Int) (recent : List Int)
    (hrecent : ((lookupA timestamps context.agentId).getD []).filter
      (fun ts => now - windowMs < ts) = recent)
    (hge : maxTxPerMinute ≤ recent.length) :
    evaluate maxTxPerMinute timestamps context now =
      (.deny "rate-limit" (denyReason recent.length maxTxPerMinute)
        [("currentRate", .num recent.length), ("limit", .num maxTxPerMinute)],
       insertA timestamps context.agentId recent) := by
  simp only [evaluate, hrecent, if_pos hge]

theorem rl_evaluate_allow_eq (maxTxPerMinute : Nat) (timestamps : List (String × List Int))
    (context : PolicyContext) (now : Int) (recent : List Int)
    (hrecent : ((lookupA timestamps context.agentId).getD []).filter
      (fun ts => now - windowMs < ts) = recent)
    (hlt : recent.length < maxTxPerMinute) :
    evaluate maxTxPerMinute timestamps context now =
      (.allow "rate-limit",
       insertA timestamps context.agentId (recent ++ [now])) := by
  simp only [evaluate, hrecent, if_neg (Nat.not_le.mpr hlt)]

/-- Timestamps of allowed calls survive in the agent's stored list: if
`acc` is a sublist of the stored list, all of `acc` and all call times lie
inside the window ending at `tEnd`, and every call is allowed, then
`acc ++ times` is a sublist of the final stored list. -/
theorem allowed_times_sublist (maxTxPerMinute : Nat) (context : PolicyContext)
    (tEnd : Int) :
    ∀ (times : List Int) (timestamps : List (String × List Int)) (acc : List Int),
      List.Sublist acc ((lookupA timestamps context.agentId).getD []) →
      (∀ x ∈ acc, tEnd - windowMs < x) →
      (∀ x ∈ times, tEnd - windowMs < x ∧ x ≤ tEnd) →
      allAllowed maxTxPerMinute context timestamps times = true →
      List.Sublist (acc ++ times)
        ((lookupA (runRate maxTxPerMinute context timestamps times)
          context.agentId).getD []) := by
  intro times
  induction times with
  | nil =>
    intro timestamps acc hsub _ _ _
    simpa [runRate] using hsub
  | cons t rest ih =>
    intro timestamps acc hsub hacc htimes hall
    have ht : tEnd - windowMs < t ∧ t ≤ tEnd := htimes t (List.mem_cons_self _ _)
    have hrest : ∀ x ∈ rest, tEnd - windowMs < x ∧ x ≤ tEnd :=
      fun x hx => htimes x (List.mem_cons_of_mem _ hx)
    rw [allAllowed, Bool.and_eq_true] at hall
    obtain ⟨hallow, hall2⟩ := hall
    set l := (lookupA timestamps context.agentId).getD [] with hl
    set recent := l.filter (fun ts => t - windowMs < ts) with hrec
    have hcase : recent.length < maxTxPerMinute := by
      by_contra hge
      rw [Nat.not_lt] at hge
      rw [rl_evaluate_deny_eq maxTxPerMinute timestamps context t recent hrec.symm hge] at hallow
      simp [PolicyDecision.allowed] at hallow
    have heval := rl_evaluate_allow_eq maxTxPerMinute timestamps context t recent
      hrec.symm hcase
    have hfilter : acc.filter (fun ts => t - windowMs < ts) = acc := by
      rw [List.filter_eq_self]
      intro x hx
      have h1 := hacc x hx
      have h2 := ht.2
      simp only [decide_eq_true_eq]
      omega
    have hsub2 : List.Sublist acc recent := by
      rw [hrec, ← hfilter]
      exact List.Sublist.filter _ hsub
    have hsub3 : List.Sublist (acc ++ [t]) (recent ++ [t]) :=
      List.Sublist.append hsub2 (List.Sublist.refl [t])
    have hlook : (lookupA (insertA timestamps context.agentId (recent ++ [t]))
        context.agentId).getD [] = recent ++ [t] := by
      rw [lookupA_insertA_self]
      rfl
    have hacc2 : ∀ x ∈ acc ++ [t], tEnd - windowMs < x := by
      intro x hx
      rcases List.mem_append.mp hx with h | h
      · exact hacc x h
      · rw [List.mem_singleton] at h
        omega
    simp only [heval] at hall2
    have := ih (insertA timestamps context.agentId (recent ++ [t])) (acc ++ [t])
      (by rw [hlook]; exact hsub3) hacc2 hrest hall2
    rw [runRate, heval]
    simpa [List.append_assoc] using this

end RateLimitPolicy

/-- A sample policy context used by concrete witnesses. -/
def sampleContext : PolicyContext :=
  { agentId := "a", walletId := "w", balance := 0, evaluatedAt := "t" }

/-- **C6**: on every evaluation the agent's timestamp list is first pruned
to the entries strictly inside the last 60 seconds; if the pruned count has
reached `N` the decision is `Deny` and only the pruned list is stored (no
new timestamp recorded, first conjunct); otherwise `now` is appended and
the decision is `Allow` (second conjunct).  Hence the `(N+1)`th call whose
first `N` calls were all allowed within one rolling 60-second span is
denied (third conjunct), and a call all of whose stored timestamps lie
outside the span is unaffected by them (fourth conjunct). -/
theorem rateLimit_prune_and_rolling_window (maxTxPerMinute : Nat)
    (timestamps : List (String × List Int)) (context : PolicyContext) (now : Int)
    (recent : List Int)
    (hrecent : ((lookupA timestamps context.agentId).getD []).filter
      (fun ts => now - RateLimitPolicy.windowMs < ts) = recent) :
    (maxTxPerMinute ≤ recent.length →
      RateLimitPolicy.evaluate maxTxPerMinute timestamps context now =
        (.deny "rate-limit"
          (RateLimitPolicy.denyReason recent.length maxTxPerMinute)
          [("currentRate", .num recent.length), ("limit", .num maxTxPerMinute)],
         insertA timestamps context.agentId recent)) ∧
    (recent.length < maxTxPerMinute →
      RateLimitPolicy.evaluate maxTxPerMinute timestamps context now =
        (.allow "rate-limit",
         insertA timestamps context.agentId (recent ++ [now]))) ∧
    (∀ times : List Int,
      times.length = maxTxPerMinute →
      RateLimitPolicy.allAllowed maxTxPerMinute context timestamps times = true →
      (∀ x ∈ times, now - RateLimitPolicy.windowMs < x ∧ x ≤ now) →
      (RateLimitPolicy.evaluate maxTxPerMinute
        (RateLimitPolicy.runRate maxTxPerMinute context timestamps times)
        context now).1.allowed = false) ∧
    ((∀ x ∈ (lookupA timestamps context.agentId).getD [],
        x ≤ now - RateLimitPolicy.windowMs) →
      0 < maxTxPerMinute →
      RateLimitPolicy.evaluate maxTxPerMinute timestamps context now =
        (.allow "rate-limit", insertA timestamps context.agentId [now])) := by
  refine ⟨?_, ?_, ?_, ?_⟩
  · exact RateLimitPolicy.rl_evaluate_deny_eq maxTxPerMinute timestamps context now
      recent hrecent
  · exact RateLimitPolicy.rl_evaluate_allow_eq maxTxPerMinute timestamps context now
      recent hrecent
  · intro times hlen hall htimes
    have hsub := RateLimitPolicy.allowed_times_sublist maxTxPerMinute context now
      times timestamps [] (List.nil_sublist _)
      (by intro x hx; exact absurd hx (List.not_mem_nil x)) htimes hall
    simp only [List.nil_append] at hsub
    have hfil : times.filter (fun ts => now - RateLimitPolicy.windowMs < ts) = times := by
      rw [List.filter_eq_self]
      intro x hx
      simpa using (htimes x hx).1
    have hsub2 := List.Sublist.filter
      (fun ts => decide (now - RateLimitPolicy.windowMs < ts)) hsub
    rw [hfil] at hsub2
    have hge : maxTxPerMinute ≤
        (((lookupA (RateLimitPolicy.runRate maxTxPerMinute context timestamps times)
          context.agentId).getD []).filter
          (fun ts => now - RateLimitPolicy.windowMs < ts)).length :=
      le_of_eq_of_le hlen.symm hsub2.length_le
    rw [RateLimitPolicy.rl_evaluate_deny_eq maxTxPerMinute _ context now _ rfl hge]
    rfl
  · intro hold hpos
    have hnil : ((lookupA timestamps context.agentId).getD []).filter
        (fun ts => now - RateLimitPolicy.windowMs < ts) = [] := by
      rw [List.filter_eq_nil_iff]
      intro x hx
      simp only [decide_eq_true_eq, not_lt]
      exact hold x hx
    have h := RateLimitPolicy.rl_evaluate_allow_eq maxTxPerMinute timestamps context now []
      hnil (by simpa using hpos)
    simpa using h

/-- Witness for C6 at a concrete input: with max 2 per minute and two
allowed calls at times 10 and 20, the third call at time 30 (all within one
60-second span) is denied. -/
theorem rateLimit_prune_and_rolling_window_witness :
    (RateLimitPolicy.evaluate 2
      (RateLimitPolicy.runRate 2 sampleContext [] [10, 20]) sampleContext 30).1.allowed
      = false :=
  (rateLimit_prune_and_rolling_window 2 [] sampleContext 30 [] rfl).2.2.1 [10, 20]
    rfl (by decide) (by decide)

/-- First-occurrence deduplication, modelling `new Set(array)` insertion
order followed by `Array.from`. -/
def dedupFirstAux (seen : List String) : List String → List String
  | [] => []
  | x :: rest =>
      if x ∈ seen then dedupFirstAux seen rest
      else x :: dedupFirstAux (x :: seen) rest

/-- `Array.from(new Set(allowedPrograms))`. -/
def dedupFirst (l : List String) : List String :=
  dedupFirstAux [] l

theorem mem_dedupFirstAux (a : String) :
    ∀ (l seen : List String), a ∈ dedupFirstAux seen l ↔ a ∈ l ∧ a ∉ seen := by
  intro l
  induction l with
  | nil => intro seen; simp [dedupFirstAux]
  | cons x rest ih =>
    intro seen
    by_cases hx : x ∈ seen
    · rw [dedupFirstAux, if_pos hx, ih]
      constructor
      · rintro ⟨h1, h2⟩
        exact ⟨List.mem_cons_of_mem _ h1, h2⟩
      · rintro ⟨h1, h2⟩
        rcases List.mem_cons.mp h1 with h | h
        · subst h; exact absurd hx h2
        · exact ⟨h, h2⟩
    · rw [dedupFirstAux, if_neg hx]
      constructor
      · intro h
        rcases List.mem_cons.mp h with h | h
        · subst h; exact ⟨List.mem_cons_self _ _, hx⟩
        · obtain ⟨h1, h2⟩ := (ih (x :: seen)).mp h
          refine ⟨List.mem_cons_of_mem _ h1, ?_⟩
          intro hs
          exact h2 (List.mem_cons_of_mem _ hs)
      · rintro ⟨h1, h2⟩
        rcases List.mem_cons.mp h1 with h | h
        · subst h; exact List.mem_cons_self _ _
        · by_cases hax : a = x
          · subst hax; exact List.mem_cons_self _ _
          · refine List.mem_cons_of_mem _ ((ih (x :: seen)).mpr ⟨h, ?_⟩)
            intro hs
            rcases List.mem_cons.mp hs with h3 | h3
            · exact hax h3
            · exact h2 h3

theorem mem_dedupFirst (a : String) (l : List String) :
    a ∈ dedupFirst l ↔ a ∈ l := by
  rw [dedupFirst, mem_dedupFirstAux]
  simp

namespace ProgramWhitelistPolicy

/-- `ProgramWhitelistPolicy.extractTargetPrograms`: a transfer touches the
Token Program when `tokenMint` is set and the System Program otherwise, a
swap touches the Jupiter v6 program, and every other intent kind resolves
to no target programs. -/
def extractTargetPrograms : Intent → List String
  | .transfer _ _ _ _ _ _ tokenMint _ =>
      match tokenMint with
      | some _ => ["TokenkegQfeZyiNwAJbNbGKPFXCWuBvf9Ss623VQ5DA"]
      | none => ["11111111111111111111111111111111"]
  | .swap .. => ["JUP6LkbZbjS1jKKwapdHNy74zcZ3tLUZoi5QNyVTaV4"]
  | _ => []

/-- The loop body of `evaluate`: deny at the first target program id absent
from the allow-set, allow when all are present. -/
def checkPrograms (allowedSet : List String) : List String → PolicyDecision
  | [] => .allow "program-whitelist"
  | programId :: rest =>
      if programId ∈ allowedSet then checkPrograms allowedSet rest
      else
        .deny "program-whitelist"
          ("Program \"" ++ programId ++ "\" is not whitelisted")
          [("deniedProgram", .str programId),
           ("allowedPrograms", .strList allowedSet)]

/-- `ProgramWhitelistPolicy.evaluate` (the context argument is unused in
the source).  The constructor's `new Set(allowedPrograms)` is modelled by
`dedupFirst`. -/
def evaluate (allowedPrograms : List String) (intent : Intent) : PolicyDecision :=
  checkPrograms (dedupFirst allowedPrograms) (extractTargetPrograms intent)

theorem checkPrograms_allow (allowedSet : List String) :
    ∀ targets : List String, (∀ p ∈ targets, p ∈ allowedSet) →
      checkPrograms allowedSet targets = .allow "program-whitelist" := by
  intro targets
  induction targets with
  | nil => intro _; rfl
  | cons programId rest ih =>
    intro h
    rw [checkPrograms, if_pos (h programId (List.mem_cons_self _ _))]
    exact ih fun p hp => h p (List.mem_cons_of_mem _ hp)

theorem checkPrograms_deny (allowedSet : List String) :
    ∀ targets : List String, (∃ p ∈ targets, p ∉ allowedSet) →
      ∃ q ∈ targets, q ∉ allowedSet ∧
        checkPrograms allowedSet targets =
          .deny "program-whitelist"
            ("Program \"" ++ q ++ "\" is not whitelisted")
            [("deniedProgram", .str q),
             ("allowedPrograms", .strList allowedSet)] := by
  intro targets
  induction targets with
  | nil => rintro ⟨p, hp, _⟩; exact absurd hp (List.not_mem_nil p)
  | cons programId rest ih =>
    rintro ⟨p, hp, hpn⟩
    by_cases hhead : programId ∈ allowedSet
    · have hp2 : p ∈ rest := by
        rcases List.mem_cons.mp hp with h | h
        · subst h; exact absurd hhead hpn
        · exact h
      obtain ⟨q, hq, hqn, heq⟩ := ih ⟨p, hp2, hpn⟩
      refine ⟨q, List.mem_cons_of_mem _ hq, hqn, ?_⟩
      rw [checkPrograms, if_pos hhead]
      exact heq
    · refine ⟨programId, List.mem_cons_self _ _, hhead, ?_⟩
      rw [checkPrograms, if_neg hhead]

end ProgramWhitelistPolicy

/-- **C7**: for the whitelist policy with allow-set `allowedPrograms`: when
some resolved target program of the intent is not in the allow-set, the
decision is a `Deny` reporting the offending identifier (first conjunct);
when every resolved target is in the allow-set the policy allows (second
conjunct); and the decision never depends on the intent's amount fields
(third and fourth conjuncts: any transfer amount, any swap amounts, same
decision). -/
theorem whitelist_deny_report_and_allow (allowedPrograms : List String)
    (intent : Intent) :
    ((∃ p ∈ ProgramWhitelistPolicy.extractTargetPrograms intent,
        p ∉ allowedPrograms) →
      ∃ q ∈ ProgramWhitelistPolicy.extractTargetPrograms intent,
        q ∉ allowedPrograms ∧
        ProgramWhitelistPolicy.evaluate allowedPrograms intent =
          .deny "program-whitelist"
            ("Program \"" ++ q ++ "\" is not whitelisted")
            [("deniedProgram", .str q),
             ("allowedPrograms", .strList (dedupFirst allowedPrograms))]) ∧
    ((∀ p ∈ ProgramWhitelistPolicy.extractTargetPrograms intent,
        p ∈ allowedPrograms) →
      ProgramWhitelistPolicy.evaluate allowedPrograms intent =
        .allow "program-whitelist") ∧
    (∀ i c f ca t a b tm r,
      ProgramWhitelistPolicy.evaluate allowedPrograms
          (.transfer i c f ca t a tm r) =
        ProgramWhitelistPolicy.evaluate allowedPrograms
          (.transfer i c f ca t b tm r)) ∧
    (∀ i c f ca pa ti tou a1 a2 b1 b2 r,
      ProgramWhitelistPolicy.evaluate allowedPrograms
          (.swap i c f ca pa ti tou a1 a2 r) =
        ProgramWhitelistPolicy.evaluate allowedPrograms
          (.swap i c f ca pa ti tou b1 b2 r)) := by
  refine ⟨?_, ?_, ?_, ?_⟩
  · rintro ⟨p, hp, hpn⟩
    have hpn2 : p ∉ dedupFirst allowedPrograms := by
      rw [mem_dedupFirst]
      exact hpn
    obtain ⟨q, hq, hqn, heq⟩ := ProgramWhitelistPolicy.checkPrograms_deny
      (dedupFirst allowedPrograms) _ ⟨p, hp, hpn2⟩
    refine ⟨q, hq, ?_, heq⟩
    rw [← mem_dedupFirst q allowedPrograms]
    exact hqn
  · intro h
    exact ProgramWhitelistPolicy.checkPrograms_allow _ _
      fun p hp => (mem_dedupFirst p allowedPrograms).mpr (h p hp)
  · intro i c f ca t a b tm r
    cases tm <;> rfl
  · intro i c f ca pa ti tou a1 a2 b1 b2 r
    rfl

/-- Witness for C7 at a concrete input: a native transfer when only the
token program is whitelisted is denied reporting the system program id, and
a native transfer with the system program whitelisted is allowed. -/
theorem whitelist_deny_report_and_allow_witness :
    (∃ q ∈ ProgramWhitelistPolicy.extractTargetPrograms sampleTransfer,
      q ∉ ["TokenkegQfeZyiNwAJbNbGKPFXCWuBvf9Ss623VQ5DA"] ∧
      ProgramWhitelistPolicy.evaluate
          ["TokenkegQfeZyiNwAJbNbGKPFXCWuBvf9Ss623VQ5DA"] sampleTransfer =
        .deny "program-whitelist"
          ("Program \"" ++ q ++ "\" is not whitelisted")
          [("deniedProgram", .str q),
           ("allowedPrograms",
            .strList (dedupFirst ["TokenkegQfeZyiNwAJbNbGKPFXCWuBvf9Ss623VQ5DA"]))]) ∧
    ProgramWhitelistPolicy.evaluate ["11111111111111111111111111111111"]
      sampleTransfer = .allow "program-whitelist" := by
  constructor
  · exact (whitelist_deny_report_and_allow
      ["TokenkegQfeZyiNwAJbNbGKPFXCWuBvf9Ss623VQ5DA"] sampleTransfer).1
      ⟨"11111111111111111111111111111111", by decide, by decide⟩
  · exact (whitelist_deny_report_and_allow
      ["11111111111111111111111111111111"] sampleTransfer).2.1 (by decide)

/-- **C10** (implicit): `create_mint` and `mint_token` intents resolve to no
target programs, so the whitelist policy allows them under every allow-set,
including the empty one (first two conjuncts); a denial by this policy is
only ever possible for `transfer` or `swap` intents (third conjunct). -/
theorem whitelist_mint_always_allowed (allowedPrograms : List String) :
    (∀ i c f ca d ma fa r,
      ProgramWhitelistPolicy.evaluate allowedPrograms
        (.create_mint i c f ca d ma fa r) = .allow "program-whitelist") ∧
    (∀ i c f ca mi t a r,
      ProgramWhitelistPolicy.evaluate allowedPrograms
        (.mint_token i c f ca mi t a r) = .allow "program-whitelist") ∧
    (∀ intent : Intent,
      (ProgramWhitelistPolicy.evaluate allowedPrograms intent).allowed = false →
      intent.type = "transfer" ∨ intent.type = "swap") := by
  refine ⟨fun i c f ca d ma fa r => rfl, fun i c f ca mi t a r => rfl, ?_⟩
  intro intent hd
  cases intent with
  | transfer => exact Or.inl rfl
  | swap => exact Or.inr rfl
  | create_mint i c f ca d ma fa r =>
    exact absurd hd (by simp [ProgramWhitelistPolicy.evaluate,
      ProgramWhitelistPolicy.extractTargetPrograms,
      ProgramWhitelistPolicy.checkPrograms, PolicyDecision.allowed])
  | mint_token i c f ca mi t a r =>
    exact absurd hd (by simp [ProgramWhitelistPolicy.evaluate,
      ProgramWhitelistPolicy.extractTargetPrograms,
      ProgramWhitelistPolicy.checkPrograms, PolicyDecision.allowed])

/-- Witness for C10 at a concrete input: a `create_mint` intent is allowed
under the empty allow-set. -/
theorem whitelist_mint_always_allowed_witness :
    ProgramWhitelistPolicy.evaluate []
      (.create_mint "i" "solana" "w" "t" 6 none none none) =
      .allow "program-whitelist" :=
  (whitelist_mint_always_allowed []).1 "i" "solana" "w" "t" 6 none none none

/-- The error thrown by `AdapterFactory.resolve` when no adapter matches:
its message enumerates the currently registered chain identifiers, which
are also carried structurally for the claims. -/
structure ResolveError where
  message : String
  registeredChains : List String
deriving DecidableEq

namespace AdapterFactory

/-- `AdapterFactory.getRegisteredChains`. -/
def getRegisteredChains {α : Type} (adapters : List (String × α)) : List String :=
  adapters.map Prod.fst

/-- `AdapterFactory.register`: throws when an adapter is already bound to
`adapter.chain` (the map is left untouched — the check precedes the `set`),
otherwise binds it. -/
def register {α : Type} (adapters : List (String × α)) (chain : String)
    (adapter : α) : Except String (List (String × α)) :=
  if (lookupA adapters chain).isSome then
    .error ("Adapter already registered for chain \"" ++ chain ++ "\"")
  else
    .ok (insertA adapters chain adapter)

/-- `AdapterFactory.resolve`: the registered adapter for `chain`, or a
thrown error listing the registered chains. -/
def resolve {α : Type} (adapters : List (String × α)) (chain : String) :
    Except ResolveError α :=
  match lookupA adapters chain with
  | some adapter => .ok adapter
  | none =>
      .error
        { message := "No adapter registered for chain \"" ++ chain ++
            "\". Available chains: [" ++
            String.intercalate ", " (getRegisteredChains adapters) ++ "]",
          registeredChains := getRegisteredChains adapters }

end AdapterFactory

/-- **C9**: `register` fails with the already-registered error whenever the
chain is bound, and the existing binding is untouched (first conjunct);
when `register` succeeds the chain was unbound, the new adapter is bound
and every other chain's binding is unchanged (second conjunct); `resolve`
fails exactly when the chain is unbound, with an error that enumerates the
currently registered chain identifiers (third conjunct); and `resolve` of a
bound chain returns its adapter (fourth conjunct). -/
theorem adapterFactory_register_resolve {α : Type}
    (adapters : List (String × α)) (chain : String) (adapter : α) :
    (∀ b, lookupA adapters chain = some b →
      AdapterFactory.register adapters chain adapter =
        .error ("Adapter already registered for chain \"" ++ chain ++ "\"") ∧
      lookupA adapters chain = some b) ∧
    (∀ m, AdapterFactory.register adapters chain adapter = .ok m →
      lookupA adapters chain = none ∧
      lookupA m chain = some adapter ∧
      ∀ c, c ≠ chain → lookupA m c = lookupA adapters c) ∧
    (lookupA adapters chain = none →
      AdapterFactory.resolve adapters chain =
        .error
          { message := "No adapter registered for chain \"" ++ chain ++
              "\". Available chains: [" ++
              String.intercalate ", "
                (AdapterFactory.getRegisteredChains adapters) ++ "]",
            registeredChains := AdapterFactory.getRegisteredChains adapters }) ∧
    (∀ b, lookupA adapters chain = some b →
      AdapterFactory.resolve adapters chain = .ok b) := by
  refine ⟨?_, ?_, ?_, ?_⟩
  · intro b hb
    refine ⟨?_, hb⟩
    unfold AdapterFactory.register
    rw [if_pos (by rw [hb]; rfl)]
  · intro m hm
    unfold AdapterFactory.register at hm
    by_cases hs : (lookupA adapters chain).isSome
    · rw [if_pos hs] at hm
      cases hm
    · rw [if_neg hs] at hm
      cases hm
      refine ⟨Option.not_isSome_iff_eq_none.mp hs, lookupA_insertA_self _ _ _, ?_⟩
      intro c hc
      exact lookupA_insertA_ne adapters chain c adapter hc
  · intro hn
    unfold AdapterFactory.resolve
    rw [hn]
  · intro b hb
    unfold AdapterFactory.resolve
    rw [hb]

/-- Witness for C9 at a concrete input: registering a second adapter for
`solana` fails with the already-registered error, and resolving an unbound
chain fails with an error enumerating the registered chains. -/
theorem adapterFactory_register_resolve_witness :
    (AdapterFactory.register [("solana", 1)] "solana" 2 =
      .error "Adapter already registered for chain \"solana\"" ∧
      lookupA [("solana", 1)] "solana" = some 1) ∧
    AdapterFactory.resolve ([("solana", 1)] : List (String × Nat)) "base" =
      .error
        { message := "No adapter registered for chain \"base\". " ++
            "Available chains: [solana]",
          registeredChains := ["solana"] } := by
  constructor
  · exact (adapterFactory_register_resolve [("solana", 1)] "solana" 2).1 1 rfl
  · exact ((adapterFactory_register_resolve
      ([("solana", 1)] : List (String × Nat)) "base" 0).2.2.1 rfl).trans rfl

/-- Witness for C2 at a concrete input: the engine with zero registered
policies (over state type `Int`) returns the synthetic engine `Allow`. -/
theorem policyEngine_evaluateAll_contract_witness :
    PolicyEngine.evaluateAll sampleTransfer sampleContext
      ([] : List (PolicyFn Int × Int)) = (.allow "policy-engine", []) :=
  (policyEngine_evaluateAll_contract sampleTransfer sampleContext).2.1

end AgenticWallet
